import Mathlib

/-!
# Ingress addon lifecycle orchestration (`pkg/yurtappmanager/util/kubernetes/apply_addons.go`)

A shallow embedding of the functions of `apply_addons.go` that install, update and tear down
the nginx ingress addon, together with theorems about the order and the arguments of the calls
they issue and about the error they return.

The functions are straight-line sequences of calls to helper functions
(`CreateNamespaceFromYaml`, `DeleteJobFromYaml`, ...) that live in a sibling file and talk to
the remote object store.  Here every such helper call is an observable event: it is appended
to a history, and its result (`nil` or an error) is whatever the remote side answers.  The
remote side is a parameter, an arbitrary function of the whole history so far and of the call
being made, so every theorem quantified over `Client` holds for every behaviour of the store.
Logging (`klog`) has no effect on the calls or on the result and is left out.
-/

namespace ApplyAddons

/-! ## Data model -/

/-- A non-nil Go `error`; a Go `error` value is an `Option GoError`, `none` being `nil`. -/
abbrev GoError := String

/-- The `client.ObjectKey` of a lookup. -/
structure ObjectKey where
  Namespace : String
  Name : String
  deriving DecidableEq, Repr

/-- The fields of `rbacv1.ClusterRole` that `CreateNginxIngressCommonResource` reads. -/
structure ClusterRole where
  APIVersion : String
  Kind : String
  Name : String
  UID : String
  deriving DecidableEq, Repr

/-- The value of `new(rbacv1.ClusterRole)`: every field is the zero value. -/
def ClusterRole.new : ClusterRole :=
  { APIVersion := "", Kind := "", Name := "", UID := "" }

/-- The type `metav1.OwnerReference`; the two `*bool` fields are `Option Bool`. -/
structure OwnerReference where
  APIVersion : String
  Kind : String
  Name : String
  UID : String
  Controller : Option Bool
  BlockOwnerDeletion : Option Bool
  deriving DecidableEq, Repr

/-- The manifest templates of package `constant` that `apply_addons.go` names.  Their content
(YAML text) is never inspected by `apply_addons.go`: each constant is identified by its
name. -/
inductive constant
  | NginxIngressControllerNamespace
  | NginxIngressControllerClusterRole
  | NginxIngressAdmissionWebhookClusterRole
  | NginxIngressControllerClusterRoleBinding
  | NginxIngressAdmissionWebhookClusterRoleBinding
  | NginxIngressControllerRole
  | NginxIngressAdmissionWebhookRole
  | NginxIngressControllerRoleBinding
  | NginxIngressAdmissionWebhookRoleBinding
  | NginxIngressControllerServiceAccount
  | NginxIngressAdmissionWebhookServiceAccount
  | NginxIngressControllerConfigMap
  | NginxIngressControllerNodePoolDeployment
  | NginxIngressAdmissionWebhookDeployment
  | NginxIngressControllerService
  | NginxIngressAdmissionWebhookService
  | NginxIngressValidatingWebhookConfiguration
  | NginxIngressAdmissionWebhookJob
  | NginxIngressAdmissionWebhookJobPatch
  deriving DecidableEq, Repr

/-- A Go `map[string]string` written as a literal: its entries. -/
abbrev Labels := List (String × String)

/-- One call of a helper function of the sibling file, with the arguments passed after the
client.  Pointer arguments (`*[]string`, `*int32`, `*metav1.OwnerReference`) are `Option`s,
`none` being the nil pointer; `int32` values are passed through unchanged and are integers. -/
inductive Call
  | CreateNamespaceFromYaml (crTmpl : constant) (ownerRefs : List OwnerReference)
  | CreateClusterRoleFromYaml (crTmpl : constant) (ownerRefs : List OwnerReference)
  | CreateClusterRoleBindingFromYaml (crTmpl : constant) (ownerRefs : List OwnerReference)
  | CreateRoleFromYaml (crTmpl : constant) (ownerRefs : List OwnerReference)
  | CreateRoleBindingFromYaml (crTmpl : constant) (ownerRefs : List OwnerReference)
  | CreateServiceAccountFromYaml (crTmpl : constant) (ownerRefs : List OwnerReference)
  | CreateConfigMapFromYaml (crTmpl : constant) (ownerRefs : List OwnerReference)
  | DeleteNamespaceFromYaml (crTmpl : constant)
  | DeleteClusterRoleFromYaml (crTmpl : constant)
  | DeleteClusterRoleBindingFromYaml (crTmpl : constant)
  | DeleteRoleFromYaml (crTmpl : constant)
  | DeleteRoleBindingFromYaml (crTmpl : constant)
  | DeleteServiceAccountFromYaml (crTmpl : constant)
  | DeleteConfigMapFromYaml (crTmpl : constant)
  | CreateDeployFromYaml (crTmpl : constant) (image : String) (replicas : Int)
      (ownerRef : Option OwnerReference) (labels : Labels)
  | CreateServiceFromYaml (crTmpl : constant) (externalIPs : Option (List String))
      (labels : Labels)
  | CreateValidatingWebhookConfigurationFromYaml (crTmpl : constant)
      (ownerRef : Option OwnerReference) (labels : Labels)
  | CreateJobFromYaml (crTmpl : constant) (image : String) (labels : Labels)
  | DeleteDeployFromYaml (crTmpl : constant) (labels : Labels)
  | DeleteServiceFromYaml (crTmpl : constant) (labels : Labels)
  | DeleteValidatingWebhookConfigurationFromYaml (crTmpl : constant) (labels : Labels)
  | DeleteJobFromYaml (crTmpl : constant) (cleanup : Bool) (labels : Labels)
  | UpdateDeployFromYaml (crTmpl : constant) (image : String) (replicas : Option Int)
      (labels : Labels)
  | UpdateServiceFromYaml (crTmpl : constant) (externalIPs : Option (List String))
      (labels : Labels)
  deriving DecidableEq, Repr

/-- What an operation does, in order: helper calls with their results, the lookup of the
manager object with its result, and waits (`time.Sleep`, the duration in nanoseconds). -/
inductive Event
  | get (key : ObjectKey) (err : Option GoError) (obj : ClusterRole)
  | call (c : Call) (err : Option GoError)
  | sleep (d : Int)
  deriving DecidableEq, Repr

/-- The remote side.  `Get h key obj` is `cli.Get(ctx, key, obj)` after history `h`: the error
returned and the content of the object passed in once the call is back.  `exec h c` is the
error returned by helper call `c` after history `h`. -/
structure Client where
  Get : List Event → ObjectKey → ClusterRole → Option GoError × ClusterRole
  exec : List Event → Call → Option GoError

/-- A computation of the orchestrator: it reads and extends the history of events. -/
abbrev Run (α : Type) := StateM (List Event) α

/-- Calls helper `c`: the remote side answers, the call and its answer are recorded. -/
def invoke (cli : Client) (c : Call) : Run (Option GoError) :=
  fun h => (cli.exec h c, h ++ [Event.call c (cli.exec h c)])

/-- The lookup `cli.Get(context.Background(), key, obj)`: returns the error and the object
as the call left it. -/
def Client.get (cli : Client) (key : ObjectKey) (obj : ClusterRole) :
    Run (Option GoError × ClusterRole) :=
  fun h => (cli.Get h key obj, h ++ [Event.get key (cli.Get h key obj).1 (cli.Get h key obj).2])

/-- The constant `time.Second`, in nanoseconds. -/
def time.Second : Int := 1000000000

/-- The call `time.Sleep(d)`: it cannot fail, the wait is recorded. -/
def time.Sleep (d : Int) : Run Unit :=
  fun h => ((), h ++ [Event.sleep d])

/-! ### The helper functions, as calls -/

def CreateNamespaceFromYaml (cli : Client) (crTmpl : constant)
    (ownerRefs : List OwnerReference) : Run (Option GoError) :=
  invoke cli (.CreateNamespaceFromYaml crTmpl ownerRefs)

def CreateClusterRoleFromYaml (cli : Client) (crTmpl : constant)
    (ownerRefs : List OwnerReference) : Run (Option GoError) :=
  invoke cli (.CreateClusterRoleFromYaml crTmpl ownerRefs)

def CreateClusterRoleBindingFromYaml (cli : Client) (crTmpl : constant)
    (ownerRefs : List OwnerReference) : Run (Option GoError) :=
  invoke cli (.CreateClusterRoleBindingFromYaml crTmpl ownerRefs)

def CreateRoleFromYaml (cli : Client) (crTmpl : constant)
    (ownerRefs : List OwnerReference) : Run (Option GoError) :=
  invoke cli (.CreateRoleFromYaml crTmpl ownerRefs)

def CreateRoleBindingFromYaml (cli : Client) (crTmpl : constant)
    (ownerRefs : List OwnerReference) : Run (Option GoError) :=
  invoke cli (.CreateRoleBindingFromYaml crTmpl ownerRefs)

def CreateServiceAccountFromYaml (cli : Client) (crTmpl : constant)
    (ownerRefs : List OwnerReference) : Run (Option GoError) :=
  invoke cli (.CreateServiceAccountFromYaml crTmpl ownerRefs)

def CreateConfigMapFromYaml (cli : Client) (crTmpl : constant)
    (ownerRefs : List OwnerReference) : Run (Option GoError) :=
  invoke cli (.CreateConfigMapFromYaml crTmpl ownerRefs)

def DeleteNamespaceFromYaml (cli : Client) (crTmpl : constant) : Run (Option GoError) :=
  invoke cli (.DeleteNamespaceFromYaml crTmpl)

def DeleteClusterRoleFromYaml (cli : Client) (crTmpl : constant) : Run (Option GoError) :=
  invoke cli (.DeleteClusterRoleFromYaml crTmpl)

def DeleteClusterRoleBindingFromYaml (cli : Client) (crTmpl : constant) :
    Run (Option GoError) :=
  invoke cli (.DeleteClusterRoleBindingFromYaml crTmpl)

def DeleteRoleFromYaml (cli : Client) (crTmpl : constant) : Run (Option GoError) :=
  invoke cli (.DeleteRoleFromYaml crTmpl)

def DeleteRoleBindingFromYaml (cli : Client) (crTmpl : constant) : Run (Option GoError) :=
  invoke cli (.DeleteRoleBindingFromYaml crTmpl)

def DeleteServiceAccountFromYaml (cli : Client) (crTmpl : constant) : Run (Option GoError) :=
  invoke cli (.DeleteServiceAccountFromYaml crTmpl)

def DeleteConfigMapFromYaml (cli : Client) (crTmpl : constant) : Run (Option GoError) :=
  invoke cli (.DeleteConfigMapFromYaml crTmpl)

def CreateDeployFromYaml (cli : Client) (crTmpl : constant) (image : String) (replicas : Int)
    (ownerRef : Option OwnerReference) (labels : Labels) : Run (Option GoError) :=
  invoke cli (.CreateDeployFromYaml crTmpl image replicas ownerRef labels)

def CreateServiceFromYaml (cli : Client) (crTmpl : constant)
    (externalIPs : Option (List String)) (labels : Labels) : Run (Option GoError) :=
  invoke cli (.CreateServiceFromYaml crTmpl externalIPs labels)

def CreateValidatingWebhookConfigurationFromYaml (cli : Client) (crTmpl : constant)
    (ownerRef : Option OwnerReference) (labels : Labels) : Run (Option GoError) :=
  invoke cli (.CreateValidatingWebhookConfigurationFromYaml crTmpl ownerRef labels)

def CreateJobFromYaml (cli : Client) (crTmpl : constant) (image : String) (labels : Labels) :
    Run (Option GoError) :=
  invoke cli (.CreateJobFromYaml crTmpl image labels)

def DeleteDeployFromYaml (cli : Client) (crTmpl : constant) (labels : Labels) :
    Run (Option GoError) :=
  invoke cli (.DeleteDeployFromYaml crTmpl labels)

def DeleteServiceFromYaml (cli : Client) (crTmpl : constant) (labels : Labels) :
    Run (Option GoError) :=
  invoke cli (.DeleteServiceFromYaml crTmpl labels)

def DeleteValidatingWebhookConfigurationFromYaml (cli : Client) (crTmpl : constant)
    (labels : Labels) : Run (Option GoError) :=
  invoke cli (.DeleteValidatingWebhookConfigurationFromYaml crTmpl labels)

def DeleteJobFromYaml (cli : Client) (crTmpl : constant) (cleanup : Bool) (labels : Labels) :
    Run (Option GoError) :=
  invoke cli (.DeleteJobFromYaml crTmpl cleanup labels)

def UpdateDeployFromYaml (cli : Client) (crTmpl : constant) (image : String)
    (replicas : Option Int) (labels : Labels) : Run (Option GoError) :=
  invoke cli (.UpdateDeployFromYaml crTmpl image replicas labels)

def UpdateServiceFromYaml (cli : Client) (crTmpl : constant)
    (externalIPs : Option (List String)) (labels : Labels) : Run (Option GoError) :=
  invoke cli (.UpdateServiceFromYaml crTmpl externalIPs labels)

/-! ## The functions of `apply_addons.go` -/

/-- The function `CreateNginxIngressCommonResource`.  The error of the lookup is only logged;
the owner reference is built from the object whatever the lookup returned. -/
def CreateNginxIngressCommonResource (cli : Client) : Run (Option GoError) := do
  let cr := ClusterRole.new
  let (_err, cr) ← cli.get { Namespace := "", Name := "yurt-app-manager-role" } cr
  let isController := true
  let isBlockOwnerDeletion := true
  let ownerRef : OwnerReference :=
    { APIVersion := cr.APIVersion
      Kind := cr.Kind
      Name := cr.Name
      UID := cr.UID
      Controller := some isController
      BlockOwnerDeletion := some isBlockOwnerDeletion }
  let ownerRefs : List OwnerReference := []
  let ownerRefs := ownerRefs ++ [ownerRef]
  -- 1. Create Namespace
  if let some err ← CreateNamespaceFromYaml cli constant.NginxIngressControllerNamespace
      ownerRefs then
    return some err
  -- 2. Create ClusterRole
  if let some err ← CreateClusterRoleFromYaml cli constant.NginxIngressControllerClusterRole
      ownerRefs then
    return some err
  if let some err ← CreateClusterRoleFromYaml cli
      constant.NginxIngressAdmissionWebhookClusterRole ownerRefs then
    return some err
  -- 3. Create ClusterRoleBinding
  if let some err ← CreateClusterRoleBindingFromYaml cli
      constant.NginxIngressControllerClusterRoleBinding ownerRefs then
    return some err
  if let some err ← CreateClusterRoleBindingFromYaml cli
      constant.NginxIngressAdmissionWebhookClusterRoleBinding ownerRefs then
    return some err
  -- 4. Create Role
  if let some err ← CreateRoleFromYaml cli constant.NginxIngressControllerRole ownerRefs then
    return some err
  if let some err ← CreateRoleFromYaml cli constant.NginxIngressAdmissionWebhookRole
      ownerRefs then
    return some err
  -- 5. Create RoleBinding
  if let some err ← CreateRoleBindingFromYaml cli constant.NginxIngressControllerRoleBinding
      ownerRefs then
    return some err
  if let some err ← CreateRoleBindingFromYaml cli
      constant.NginxIngressAdmissionWebhookRoleBinding ownerRefs then
    return some err
  -- 6. Create ServiceAccount
  if let some err ← CreateServiceAccountFromYaml cli
      constant.NginxIngressControllerServiceAccount ownerRefs then
    return some err
  if let some err ← CreateServiceAccountFromYaml cli
      constant.NginxIngressAdmissionWebhookServiceAccount ownerRefs then
    return some err
  -- 7. Create Configmap
  if let some err ← CreateConfigMapFromYaml cli constant.NginxIngressControllerConfigMap
      ownerRefs then
    return some err
  return none

/-- The function `DeleteNginxIngressCommonResource`. -/
def DeleteNginxIngressCommonResource (client : Client) : Run (Option GoError) := do
  -- 1. Delete Configmap
  if let some err ← DeleteConfigMapFromYaml client constant.NginxIngressControllerConfigMap then
    return some err
  -- 2. Delete RoleBinding
  if let some err ← DeleteRoleBindingFromYaml client
      constant.NginxIngressControllerRoleBinding then
    return some err
  if let some err ← DeleteRoleBindingFromYaml client
      constant.NginxIngressAdmissionWebhookRoleBinding then
    return some err
  -- 3. Delete Role
  if let some err ← DeleteRoleFromYaml client constant.NginxIngressControllerRole then
    return some err
  if let some err ← DeleteRoleFromYaml client constant.NginxIngressAdmissionWebhookRole then
    return some err
  -- 4. Delete ClusterRoleBinding
  if let some err ← DeleteClusterRoleBindingFromYaml client
      constant.NginxIngressControllerClusterRoleBinding then
    return some err
  if let some err ← DeleteClusterRoleBindingFromYaml client
      constant.NginxIngressAdmissionWebhookClusterRoleBinding then
    return some err
  -- 5. Delete ClusterRole
  if let some err ← DeleteClusterRoleFromYaml client
      constant.NginxIngressControllerClusterRole then
    return some err
  if let some err ← DeleteClusterRoleFromYaml client
      constant.NginxIngressAdmissionWebhookClusterRole then
    return some err
  -- 6. Delete ServiceAccount
  if let some err ← DeleteServiceAccountFromYaml client
      constant.NginxIngressControllerServiceAccount then
    return some err
  if let some err ← DeleteServiceAccountFromYaml client
      constant.NginxIngressAdmissionWebhookServiceAccount then
    return some err
  -- 7. Delete Namespace
  if let some err ← DeleteNamespaceFromYaml client constant.NginxIngressControllerNamespace then
    return some err
  return none

/-- The function `CreateNginxIngressSpecificResource`. -/
def CreateNginxIngressSpecificResource (client : Client) (poolname : String)
    (externalIPs : Option (List String))
    (ingress_controller_image ingress_webhook_certgen_image : String) (replicas : Int)
    (ownerRef : Option OwnerReference) : Run (Option GoError) := do
  -- 1. Create Deployment
  if let some err ← CreateDeployFromYaml client constant.NginxIngressControllerNodePoolDeployment
      ingress_controller_image replicas ownerRef [("nodepool_name", poolname)] then
    return some err
  if let some err ← CreateDeployFromYaml client constant.NginxIngressAdmissionWebhookDeployment
      ingress_controller_image 1 none [("nodepool_name", poolname)] then
    return some err
  -- 2. Create Service
  if let some err ← CreateServiceFromYaml client constant.NginxIngressControllerService
      externalIPs [("nodepool_name", poolname)] then
    return some err
  if let some err ← CreateServiceFromYaml client constant.NginxIngressAdmissionWebhookService
      none [("nodepool_name", poolname)] then
    return some err
  -- 3. Create ValidatingWebhookConfiguration
  if let some err ← CreateValidatingWebhookConfigurationFromYaml client
      constant.NginxIngressValidatingWebhookConfiguration ownerRef
      [("nodepool_name", poolname)] then
    return some err
  -- 4. Create Job
  if let some err ← CreateJobFromYaml client constant.NginxIngressAdmissionWebhookJob
      ingress_webhook_certgen_image [("nodepool_name", poolname)] then
    return some err
  -- 5. Create Job Patch
  if let some err ← CreateJobFromYaml client constant.NginxIngressAdmissionWebhookJobPatch
      ingress_webhook_certgen_image [("nodepool_name", poolname)] then
    return some err
  return none

/-- The function `DeleteNginxIngressSpecificResource`. -/
def DeleteNginxIngressSpecificResource (client : Client) (poolname : String) (cleanup : Bool) :
    Run (Option GoError) := do
  -- 1. Delete Deployment
  if let some err ← DeleteDeployFromYaml client constant.NginxIngressControllerNodePoolDeployment
      [("nodepool_name", poolname)] then
    return some err
  if let some err ← DeleteDeployFromYaml client constant.NginxIngressAdmissionWebhookDeployment
      [("nodepool_name", poolname)] then
    return some err
  -- 2. Delete Service
  if let some err ← DeleteServiceFromYaml client constant.NginxIngressControllerService
      [("nodepool_name", poolname)] then
    return some err
  if let some err ← DeleteServiceFromYaml client constant.NginxIngressAdmissionWebhookService
      [("nodepool_name", poolname)] then
    return some err
  -- 3. Delete ValidatingWebhookConfiguration
  if let some err ← DeleteValidatingWebhookConfigurationFromYaml client
      constant.NginxIngressValidatingWebhookConfiguration [("nodepool_name", poolname)] then
    return some err
  -- 4. Delete Job
  if let some err ← DeleteJobFromYaml client constant.NginxIngressAdmissionWebhookJob cleanup
      [("nodepool_name", poolname)] then
    return some err
  -- 5. Delete Job Patch
  if let some err ← DeleteJobFromYaml client constant.NginxIngressAdmissionWebhookJobPatch
      cleanup [("nodepool_name", poolname)] then
    return some err
  return none

/-- The function `ScaleNginxIngressControllerDeploymment`. -/
def ScaleNginxIngressControllerDeploymment (client : Client) (poolname : String)
    (replicas : Int) : Run (Option GoError) := do
  if let some err ← UpdateDeployFromYaml client constant.NginxIngressControllerNodePoolDeployment
      "" (some replicas) [("nodepool_name", poolname)] then
    return some err
  return none

/-- The function `UpdateNginxServiceExternalIPs`. -/
def UpdateNginxServiceExternalIPs (client : Client) (poolname : String)
    (externalIPs : List String) : Run (Option GoError) := do
  if let some err ← UpdateServiceFromYaml client constant.NginxIngressControllerService
      (some externalIPs) [("nodepool_name", poolname)] then
    return some err
  return none

/-- The function `UpdateNginxIngressControllerDeploymment`. -/
def UpdateNginxIngressControllerDeploymment (client : Client) (poolname : String)
    (replicas : Int) (image : String) : Run (Option GoError) := do
  let webhook_replicas : Int := 1
  if let some err ← UpdateDeployFromYaml client constant.NginxIngressControllerNodePoolDeployment
      image (some replicas) [("nodepool_name", poolname)] then
    return some err
  if let some err ← UpdateDeployFromYaml client constant.NginxIngressAdmissionWebhookDeployment
      image (some webhook_replicas) [("nodepool_name", poolname)] then
    return some err
  return none

/-- The function `RecreateNginxWebhookJob`. -/
def RecreateNginxWebhookJob (client : Client) (poolname : String) (image : String) :
    Run (Option GoError) := do
  if let some err ← DeleteJobFromYaml client constant.NginxIngressAdmissionWebhookJob false
      [("nodepool_name", poolname)] then
    return some err
  if let some err ← DeleteJobFromYaml client constant.NginxIngressAdmissionWebhookJobPatch false
      [("nodepool_name", poolname)] then
    return some err
  time.Sleep (3 * time.Second)
  if let some err ← CreateJobFromYaml client constant.NginxIngressAdmissionWebhookJob image
      [("nodepool_name", poolname)] then
    return some err
  if let some err ← CreateJobFromYaml client constant.NginxIngressAdmissionWebhookJobPatch image
      [("nodepool_name", poolname)] then
    return some err
  return none


/-! ## What a call is -/

/-- Whether a helper creates, deletes or updates. -/
inductive Verb
  | create
  | delete
  | update
  deriving DecidableEq, Repr

/-- The resource kinds of the addon. -/
inductive Kind
  | Namespace
  | ClusterRole
  | ClusterRoleBinding
  | Role
  | RoleBinding
  | ServiceAccount
  | ConfigMap
  | Deployment
  | Service
  | ValidatingWebhookConfiguration
  | Job
  deriving DecidableEq, Repr

/-- The verb of a helper, read off its name. -/
def Call.verb : Call → Verb
  | .CreateNamespaceFromYaml _ _ => .create
  | .CreateClusterRoleFromYaml _ _ => .create
  | .CreateClusterRoleBindingFromYaml _ _ => .create
  | .CreateRoleFromYaml _ _ => .create
  | .CreateRoleBindingFromYaml _ _ => .create
  | .CreateServiceAccountFromYaml _ _ => .create
  | .CreateConfigMapFromYaml _ _ => .create
  | .DeleteNamespaceFromYaml _ => .delete
  | .DeleteClusterRoleFromYaml _ => .delete
  | .DeleteClusterRoleBindingFromYaml _ => .delete
  | .DeleteRoleFromYaml _ => .delete
  | .DeleteRoleBindingFromYaml _ => .delete
  | .DeleteServiceAccountFromYaml _ => .delete
  | .DeleteConfigMapFromYaml _ => .delete
  | .CreateDeployFromYaml _ _ _ _ _ => .create
  | .CreateServiceFromYaml _ _ _ => .create
  | .CreateValidatingWebhookConfigurationFromYaml _ _ _ => .create
  | .CreateJobFromYaml _ _ _ => .create
  | .DeleteDeployFromYaml _ _ => .delete
  | .DeleteServiceFromYaml _ _ => .delete
  | .DeleteValidatingWebhookConfigurationFromYaml _ _ => .delete
  | .DeleteJobFromYaml _ _ _ => .delete
  | .UpdateDeployFromYaml _ _ _ _ => .update
  | .UpdateServiceFromYaml _ _ _ => .update

/-- The resource kind a helper works on, read off its name. -/
def Call.kind : Call → Kind
  | .CreateNamespaceFromYaml _ _ => .Namespace
  | .CreateClusterRoleFromYaml _ _ => .ClusterRole
  | .CreateClusterRoleBindingFromYaml _ _ => .ClusterRoleBinding
  | .CreateRoleFromYaml _ _ => .Role
  | .CreateRoleBindingFromYaml _ _ => .RoleBinding
  | .CreateServiceAccountFromYaml _ _ => .ServiceAccount
  | .CreateConfigMapFromYaml _ _ => .ConfigMap
  | .DeleteNamespaceFromYaml _ => .Namespace
  | .DeleteClusterRoleFromYaml _ => .ClusterRole
  | .DeleteClusterRoleBindingFromYaml _ => .ClusterRoleBinding
  | .DeleteRoleFromYaml _ => .Role
  | .DeleteRoleBindingFromYaml _ => .RoleBinding
  | .DeleteServiceAccountFromYaml _ => .ServiceAccount
  | .DeleteConfigMapFromYaml _ => .ConfigMap
  | .CreateDeployFromYaml _ _ _ _ _ => .Deployment
  | .CreateServiceFromYaml _ _ _ => .Service
  | .CreateValidatingWebhookConfigurationFromYaml _ _ _ => .ValidatingWebhookConfiguration
  | .CreateJobFromYaml _ _ _ => .Job
  | .DeleteDeployFromYaml _ _ => .Deployment
  | .DeleteServiceFromYaml _ _ => .Service
  | .DeleteValidatingWebhookConfigurationFromYaml _ _ => .ValidatingWebhookConfiguration
  | .DeleteJobFromYaml _ _ _ => .Job
  | .UpdateDeployFromYaml _ _ _ _ => .Deployment
  | .UpdateServiceFromYaml _ _ _ => .Service

/-- The template a call is made with. -/
def Call.crTmpl : Call → constant
  | .CreateNamespaceFromYaml t _ => t
  | .CreateClusterRoleFromYaml t _ => t
  | .CreateClusterRoleBindingFromYaml t _ => t
  | .CreateRoleFromYaml t _ => t
  | .CreateRoleBindingFromYaml t _ => t
  | .CreateServiceAccountFromYaml t _ => t
  | .CreateConfigMapFromYaml t _ => t
  | .DeleteNamespaceFromYaml t => t
  | .DeleteClusterRoleFromYaml t => t
  | .DeleteClusterRoleBindingFromYaml t => t
  | .DeleteRoleFromYaml t => t
  | .DeleteRoleBindingFromYaml t => t
  | .DeleteServiceAccountFromYaml t => t
  | .DeleteConfigMapFromYaml t => t
  | .CreateDeployFromYaml t _ _ _ _ => t
  | .CreateServiceFromYaml t _ _ => t
  | .CreateValidatingWebhookConfigurationFromYaml t _ _ => t
  | .CreateJobFromYaml t _ _ => t
  | .DeleteDeployFromYaml t _ => t
  | .DeleteServiceFromYaml t _ => t
  | .DeleteValidatingWebhookConfigurationFromYaml t _ => t
  | .DeleteJobFromYaml t _ _ => t
  | .UpdateDeployFromYaml t _ _ _ => t
  | .UpdateServiceFromYaml t _ _ => t

/-- The label map a call carries, when its helper takes one. -/
def Call.labels : Call → Option Labels
  | .CreateDeployFromYaml _ _ _ _ l => some l
  | .CreateServiceFromYaml _ _ l => some l
  | .CreateValidatingWebhookConfigurationFromYaml _ _ l => some l
  | .CreateJobFromYaml _ _ l => some l
  | .DeleteDeployFromYaml _ l => some l
  | .DeleteServiceFromYaml _ l => some l
  | .DeleteValidatingWebhookConfigurationFromYaml _ l => some l
  | .DeleteJobFromYaml _ _ l => some l
  | .UpdateDeployFromYaml _ _ _ l => some l
  | .UpdateServiceFromYaml _ _ l => some l
  | _ => none

/-- The owner-reference list a call carries, when its helper takes one. -/
def Call.ownerRefs : Call → Option (List OwnerReference)
  | .CreateNamespaceFromYaml _ o => some o
  | .CreateClusterRoleFromYaml _ o => some o
  | .CreateClusterRoleBindingFromYaml _ o => some o
  | .CreateRoleFromYaml _ o => some o
  | .CreateRoleBindingFromYaml _ o => some o
  | .CreateServiceAccountFromYaml _ o => some o
  | .CreateConfigMapFromYaml _ o => some o
  | _ => none

/-- The cleanup flag a call carries, when its helper takes one. -/
def Call.cleanup : Call → Option Bool
  | .DeleteJobFromYaml _ b _ => some b
  | _ => none

/-- The kinds a binding can name, by the shape of the RBAC objects: a RoleBinding names a
Role or a ClusterRole, a ClusterRoleBinding names a ClusterRole, and both name
ServiceAccounts as subjects. -/
def Kind.mayReference : Kind → Kind → Bool
  | .RoleBinding, .Role => true
  | .RoleBinding, .ClusterRole => true
  | .RoleBinding, .ServiceAccount => true
  | .ClusterRoleBinding, .ClusterRole => true
  | .ClusterRoleBinding, .ServiceAccount => true
  | _, _ => false

/-- The kinds of the calls of a list of events, in order. -/
def kindsOf (evs : List Event) : List Kind :=
  evs.filterMap fun e =>
    match e with
    | Event.call c _ => some c.kind
    | _ => none

/-- Collapses every run of equal consecutive elements to one element. -/
def collapse {α : Type} [DecidableEq α] : List α → List α
  | [] => []
  | [a] => [a]
  | a :: b :: l => if a = b then collapse (b :: l) else a :: collapse (b :: l)

/-! ## Sequences and fail-fast runs -/

/-- One step of a sequence: a helper call, or a wait. -/
inductive Step
  | call (c : Call)
  | sleep (d : Int)
  deriving DecidableEq, Repr

/-- The event a step leaves in the history when it does not fail. -/
def Step.ok : Step → Event
  | Step.call c => Event.call c none
  | Step.sleep d => Event.sleep d

/-- The events `evs` are the sequence `steps` cut just after its first failing call, and `res`
is that call's error, or nil when no call failed: either every step ran and succeeded, or
the first `n` steps succeeded and step `n`, a call, failed with `err`. -/
def CutAfterFirstFailure (steps : List Step) (evs : List Event) (res : Option GoError) : Prop :=
  (res = none ∧ evs = steps.map Step.ok) ∨
  ∃ n c err, steps[n]? = some (Step.call c) ∧ res = some err ∧
    evs = (steps.take n).map Step.ok ++ [Event.call c (some err)]

/-- Every result recorded in `evs`, a run started after history `h`, is what the remote side
`cli` answers at that point (a lookup being made with a freshly allocated object). -/
def Answered (cli : Client) : List Event → List Event → Prop
  | _, [] => True
  | h, Event.call c r :: evs => cli.exec h c = r ∧ Answered cli (h ++ [Event.call c r]) evs
  | h, Event.get key err obj :: evs =>
      cli.Get h key ClusterRole.new = (err, obj) ∧
        Answered cli (h ++ [Event.get key err obj]) evs
  | h, Event.sleep d :: evs => Answered cli (h ++ [Event.sleep d]) evs

/-- The events a computation appends to the history `h` it starts from. -/
def issued {α : Type} (r : Run α) (h : List Event) : List Event :=
  (r h).2.drop h.length

/-- An interpreter of sequences: runs the steps in order and stops at the first call that
fails, returning its error. -/
def failFast (cli : Client) : List Step → Run (Option GoError)
  | [] => fun h => (none, h)
  | Step.sleep d :: rest => fun h => failFast cli rest (h ++ [Event.sleep d])
  | Step.call c :: rest => fun h =>
      match cli.exec h c with
      | some err => (some err, h ++ [Event.call c (some err)])
      | none => failFast cli rest (h ++ [Event.call c none])

/-- The run `r` from history `h` only extends the history, by a fail-fast run of `steps`
against `cli`, and returns the first failing call's error or nil. -/
def FailFastRun (cli : Client) (steps : List Step) (r : Run (Option GoError))
    (h : List Event) : Prop :=
  (r h).2 = h ++ issued r h ∧ Answered cli h (issued r h) ∧
    CutAfterFirstFailure steps (issued r h) (r h).1

/-! ## The sequences of the specification -/

/-- The pool scope key of a pool: the one label pair that tags its resources. -/
def Spec.keyFor (poolName : String) : Labels := [("nodepool_name", poolName)]

/-- Install common resources: Namespace; two ClusterRoles (controller, admission-webhook);
two ClusterRoleBindings; two Roles; two RoleBindings; two ServiceAccounts; one ConfigMap,
each created with the owner references `ownerRefs`. -/
def Spec.installCommon (ownerRefs : List OwnerReference) : List Step :=
  [ Step.call (Call.CreateNamespaceFromYaml constant.NginxIngressControllerNamespace ownerRefs),
    Step.call (Call.CreateClusterRoleFromYaml constant.NginxIngressControllerClusterRole
      ownerRefs),
    Step.call (Call.CreateClusterRoleFromYaml constant.NginxIngressAdmissionWebhookClusterRole
      ownerRefs),
    Step.call (Call.CreateClusterRoleBindingFromYaml
      constant.NginxIngressControllerClusterRoleBinding ownerRefs),
    Step.call (Call.CreateClusterRoleBindingFromYaml
      constant.NginxIngressAdmissionWebhookClusterRoleBinding ownerRefs),
    Step.call (Call.CreateRoleFromYaml constant.NginxIngressControllerRole ownerRefs),
    Step.call (Call.CreateRoleFromYaml constant.NginxIngressAdmissionWebhookRole ownerRefs),
    Step.call (Call.CreateRoleBindingFromYaml constant.NginxIngressControllerRoleBinding
      ownerRefs),
    Step.call (Call.CreateRoleBindingFromYaml constant.NginxIngressAdmissionWebhookRoleBinding
      ownerRefs),
    Step.call (Call.CreateServiceAccountFromYaml constant.NginxIngressControllerServiceAccount
      ownerRefs),
    Step.call (Call.CreateServiceAccountFromYaml
      constant.NginxIngressAdmissionWebhookServiceAccount ownerRefs),
    Step.call (Call.CreateConfigMapFromYaml constant.NginxIngressControllerConfigMap ownerRefs) ]

/-- Uninstall common resources: ConfigMap; two RoleBindings; two Roles; two
ClusterRoleBindings; two ClusterRoles; two ServiceAccounts; Namespace. -/
def Spec.uninstallCommon : List Step :=
  [ Step.call (Call.DeleteConfigMapFromYaml constant.NginxIngressControllerConfigMap),
    Step.call (Call.DeleteRoleBindingFromYaml constant.NginxIngressControllerRoleBinding),
    Step.call (Call.DeleteRoleBindingFromYaml constant.NginxIngressAdmissionWebhookRoleBinding),
    Step.call (Call.DeleteRoleFromYaml constant.NginxIngressControllerRole),
    Step.call (Call.DeleteRoleFromYaml constant.NginxIngressAdmissionWebhookRole),
    Step.call (Call.DeleteClusterRoleBindingFromYaml
      constant.NginxIngressControllerClusterRoleBinding),
    Step.call (Call.DeleteClusterRoleBindingFromYaml
      constant.NginxIngressAdmissionWebhookClusterRoleBinding),
    Step.call (Call.DeleteClusterRoleFromYaml constant.NginxIngressControllerClusterRole),
    Step.call (Call.DeleteClusterRoleFromYaml constant.NginxIngressAdmissionWebhookClusterRole),
    Step.call (Call.DeleteServiceAccountFromYaml constant.NginxIngressControllerServiceAccount),
    Step.call (Call.DeleteServiceAccountFromYaml
      constant.NginxIngressAdmissionWebhookServiceAccount),
    Step.call (Call.DeleteNamespaceFromYaml constant.NginxIngressControllerNamespace) ]

/-- Install pool resources: controller Deployment (replicas and owner reference as given);
webhook Deployment (replicas 1, no owner reference); controller Service (the given external
IPs); webhook Service (no external IPs); ValidatingWebhookConfiguration (owner reference as
given); certificate-generation Job and certificate-patch Job (webhook image).  Both
Deployments are created with the controller image. -/
def Spec.installPool (poolName : String) (externalIPs : Option (List String))
    (controllerImage webhookImage : String) (replicas : Int)
    (ownerRef : Option OwnerReference) : List Step :=
  [ Step.call (Call.CreateDeployFromYaml constant.NginxIngressControllerNodePoolDeployment
      controllerImage replicas ownerRef (Spec.keyFor poolName)),
    Step.call (Call.CreateDeployFromYaml constant.NginxIngressAdmissionWebhookDeployment
      controllerImage 1 none (Spec.keyFor poolName)),
    Step.call (Call.CreateServiceFromYaml constant.NginxIngressControllerService externalIPs
      (Spec.keyFor poolName)),
    Step.call (Call.CreateServiceFromYaml constant.NginxIngressAdmissionWebhookService none
      (Spec.keyFor poolName)),
    Step.call (Call.CreateValidatingWebhookConfigurationFromYaml
      constant.NginxIngressValidatingWebhookConfiguration ownerRef (Spec.keyFor poolName)),
    Step.call (Call.CreateJobFromYaml constant.NginxIngressAdmissionWebhookJob webhookImage
      (Spec.keyFor poolName)),
    Step.call (Call.CreateJobFromYaml constant.NginxIngressAdmissionWebhookJobPatch webhookImage
      (Spec.keyFor poolName)) ]

/-- Uninstall pool resources: controller Deployment; webhook Deployment; controller Service;
webhook Service; ValidatingWebhookConfiguration; certificate Job; certificate-patch Job, the
cleanup flag going to the two Job deletions. -/
def Spec.uninstallPool (poolName : String) (forceCleanup : Bool) : List Step :=
  [ Step.call (Call.DeleteDeployFromYaml constant.NginxIngressControllerNodePoolDeployment
      (Spec.keyFor poolName)),
    Step.call (Call.DeleteDeployFromYaml constant.NginxIngressAdmissionWebhookDeployment
      (Spec.keyFor poolName)),
    Step.call (Call.DeleteServiceFromYaml constant.NginxIngressControllerService
      (Spec.keyFor poolName)),
    Step.call (Call.DeleteServiceFromYaml constant.NginxIngressAdmissionWebhookService
      (Spec.keyFor poolName)),
    Step.call (Call.DeleteValidatingWebhookConfigurationFromYaml
      constant.NginxIngressValidatingWebhookConfiguration (Spec.keyFor poolName)),
    Step.call (Call.DeleteJobFromYaml constant.NginxIngressAdmissionWebhookJob forceCleanup
      (Spec.keyFor poolName)),
    Step.call (Call.DeleteJobFromYaml constant.NginxIngressAdmissionWebhookJobPatch forceCleanup
      (Spec.keyFor poolName)) ]

/-- Update controller deployment: the controller Deployment with the given replicas and
image, then the webhook Deployment with replicas 1 and the same image. -/
def Spec.updateControllerDeployment (poolName : String) (replicas : Int) (image : String) :
    List Step :=
  [ Step.call (Call.UpdateDeployFromYaml constant.NginxIngressControllerNodePoolDeployment image
      (some replicas) (Spec.keyFor poolName)),
    Step.call (Call.UpdateDeployFromYaml constant.NginxIngressAdmissionWebhookDeployment image
      (some 1) (Spec.keyFor poolName)) ]

/-- Scale controller deployment: one update of the controller Deployment, with the replica
count and the empty image. -/
def Spec.scaleCall (poolName : String) (replicas : Int) : Call :=
  Call.UpdateDeployFromYaml constant.NginxIngressControllerNodePoolDeployment ""
    (some replicas) (Spec.keyFor poolName)

/-- Update service external IPs: one update of the controller Service. -/
def Spec.updateExternalIPsCall (poolName : String) (externalIPs : List String) : Call :=
  Call.UpdateServiceFromYaml constant.NginxIngressControllerService (some externalIPs)
    (Spec.keyFor poolName)

/-- Recreate webhook jobs: delete the certificate Job and the certificate-patch Job (no forced
cleanup), wait 3 seconds, create both Jobs with the supplied image. -/
def Spec.recreateWebhookJobs (poolName : String) (image : String) : List Step :=
  [ Step.call (Call.DeleteJobFromYaml constant.NginxIngressAdmissionWebhookJob false
      (Spec.keyFor poolName)),
    Step.call (Call.DeleteJobFromYaml constant.NginxIngressAdmissionWebhookJobPatch false
      (Spec.keyFor poolName)),
    Step.sleep (3 * time.Second),
    Step.call (Call.CreateJobFromYaml constant.NginxIngressAdmissionWebhookJob image
      (Spec.keyFor poolName)),
    Step.call (Call.CreateJobFromYaml constant.NginxIngressAdmissionWebhookJobPatch image
      (Spec.keyFor poolName)) ]

/-- The owner reference `CreateNginxIngressCommonResource` builds from the looked-up object. -/
def ownerRefOf (cr : ClusterRole) : OwnerReference :=
  { APIVersion := cr.APIVersion, Kind := cr.Kind, Name := cr.Name, UID := cr.UID,
    Controller := some true, BlockOwnerDeletion := some true }

/-- The key of the manager object looked up by `CreateNginxIngressCommonResource`. -/
def managerKey : ObjectKey := { Namespace := "", Name := "yurt-app-manager-role" }

/-! ## Definitions used by the statements -/

/-- Whether an event is a call on a Job. -/
def Event.onJob : Event → Bool
  | Event.call c _ => decide (c.kind = Kind.Job)
  | _ => false

/-- A remote side on which every lookup and every call succeeds. -/
def Client.allSucceed : Client :=
  { Get := fun _ _ obj => (none, obj), exec := fun _ _ => none }

theorem cut_nil {evs : List Event} {res : Option GoError} :
    CutAfterFirstFailure [] evs res ↔ evs = [] ∧ res = none := by
  constructor
  · rintro (⟨h1, h2⟩ | ⟨n, c, err, hn, -, -⟩)
    · exact ⟨by simpa using h2, h1⟩
    · simp at hn
  · rintro ⟨h1, h2⟩
    exact Or.inl ⟨h2, by simpa using h1⟩

theorem cut_cons_sleep {d : Int} {rest : List Step} {evs : List Event}
    {res : Option GoError} :
    CutAfterFirstFailure (Step.sleep d :: rest) evs res ↔
      ∃ evs1, evs = Event.sleep d :: evs1 ∧ CutAfterFirstFailure rest evs1 res := by
  constructor
  · rintro (⟨h1, h2⟩ | ⟨n, c, err, hn, h1, h2⟩)
    · exact ⟨rest.map Step.ok, by simpa [Step.ok] using h2, Or.inl ⟨h1, rfl⟩⟩
    · cases n with
      | zero => simp at hn
      | succ n =>
        refine ⟨(rest.take n).map Step.ok ++ [Event.call c (some err)], ?_, Or.inr ?_⟩
        · simpa [Step.ok] using h2
        · exact ⟨n, c, err, by simpa using hn, h1, rfl⟩
  · rintro ⟨evs1, rfl, (⟨h1, h2⟩ | ⟨n, c, err, hn, h1, h2⟩)⟩
    · exact Or.inl ⟨h1, by simp [Step.ok, h2]⟩
    · exact Or.inr ⟨n + 1, c, err, by simpa using hn, h1, by simp [Step.ok, h2]⟩

theorem cut_cons_call {c : Call} {rest : List Step} {evs : List Event}
    {res : Option GoError} :
    CutAfterFirstFailure (Step.call c :: rest) evs res ↔
      (∃ err, evs = [Event.call c (some err)] ∧ res = some err) ∨
      ∃ evs1, evs = Event.call c none :: evs1 ∧ CutAfterFirstFailure rest evs1 res := by
  constructor
  · rintro (⟨h1, h2⟩ | ⟨n, c1, err, hn, h1, h2⟩)
    · exact Or.inr ⟨rest.map Step.ok, by simpa [Step.ok] using h2, Or.inl ⟨h1, rfl⟩⟩
    · cases n with
      | zero =>
        simp at hn
        subst hn
        exact Or.inl ⟨err, by simpa using h2, h1⟩
      | succ n =>
        refine Or.inr ⟨(rest.take n).map Step.ok ++ [Event.call c1 (some err)], ?_, Or.inr ?_⟩
        · simpa [Step.ok] using h2
        · exact ⟨n, c1, err, by simpa using hn, h1, rfl⟩
  · rintro (⟨err, rfl, h1⟩ | ⟨evs1, rfl, (⟨h1, h2⟩ | ⟨n, c1, err, hn, h1, h2⟩)⟩)
    · exact Or.inr ⟨0, c, err, by simp, h1, by simp⟩
    · exact Or.inl ⟨h1, by simp [Step.ok, h2]⟩
    · exact Or.inr ⟨n + 1, c1, err, by simpa using hn, h1, by simp [Step.ok, h2]⟩

/-- The interpreter extends the history by a cut of its sequence, answered by the client. -/
theorem failFast_spec (cli : Client) (steps : List Step) :
    ∀ h : List Event, ∃ evs, (failFast cli steps h).2 = h ++ evs ∧ Answered cli h evs ∧
      CutAfterFirstFailure steps evs (failFast cli steps h).1 := by
  induction steps with
  | nil =>
    intro h
    exact ⟨[], by simp [failFast], trivial, cut_nil.mpr ⟨rfl, rfl⟩⟩
  | cons s rest ih =>
    intro h
    cases s with
    | sleep d =>
      obtain ⟨evs, h1, h2, h3⟩ := ih (h ++ [Event.sleep d])
      refine ⟨Event.sleep d :: evs, ?_, ?_, ?_⟩
      · simpa [failFast] using h1
      · simpa [Answered] using h2
      · exact cut_cons_sleep.mpr ⟨evs, rfl, by simpa [failFast] using h3⟩
    | call c =>
      cases hc : cli.exec h c with
      | some err =>
        refine ⟨[Event.call c (some err)], ?_, ?_, ?_⟩
        · simp [failFast, hc]
        · simp [Answered, hc]
        · exact cut_cons_call.mpr (Or.inl ⟨err, rfl, by simp [failFast, hc]⟩)
      | none =>
        obtain ⟨evs, h1, h2, h3⟩ := ih (h ++ [Event.call c none])
        refine ⟨Event.call c none :: evs, ?_, ?_, ?_⟩
        · simpa [failFast, hc] using h1
        · simpa [Answered, hc] using h2
        · exact cut_cons_call.mpr (Or.inr ⟨evs, rfl, by simpa [failFast, hc] using h3⟩)

/-- A computation that agrees with the interpreter on `steps` is a fail-fast run of them. -/
theorem failFastRun_of_eq {cli : Client} {steps : List Step} {r : Run (Option GoError)}
    {h : List Event} (heq : r h = failFast cli steps h) : FailFastRun cli steps r h := by
  obtain ⟨evs, h1, h2, h3⟩ := failFast_spec cli steps h
  have hi : issued r h = evs := by simp [issued, heq, h1]
  rw [← heq] at h1 h3
  exact ⟨by rw [hi]; exact h1, by rw [hi]; exact h2, by rw [hi]; exact h3⟩

/-! ## The functions against the interpreter -/

theorem deleteCommon_eq (cli : Client) (h : List Event) :
    DeleteNginxIngressCommonResource cli h = failFast cli Spec.uninstallCommon h := by
  simp only [DeleteNginxIngressCommonResource, Spec.uninstallCommon, failFast]
  repeat' (first | rfl | split)
  all_goals simp_all [bind, StateT.bind, pure, StateT.pure, invoke,
    DeleteNamespaceFromYaml, DeleteClusterRoleFromYaml, DeleteClusterRoleBindingFromYaml,
    DeleteRoleFromYaml, DeleteRoleBindingFromYaml, DeleteServiceAccountFromYaml,
    DeleteConfigMapFromYaml]

theorem createCommon_eq (cli : Client) (h : List Event) :
    CreateNginxIngressCommonResource cli h =
      failFast cli (Spec.installCommon [ownerRefOf (cli.Get h managerKey ClusterRole.new).2])
        (h ++ [Event.get managerKey (cli.Get h managerKey ClusterRole.new).1
          (cli.Get h managerKey ClusterRole.new).2]) := by
  simp only [CreateNginxIngressCommonResource, Spec.installCommon, failFast, ownerRefOf,
    managerKey]
  repeat' (first | rfl | split)
  all_goals simp_all [bind, StateT.bind, pure, StateT.pure, invoke, Client.get,
    CreateNamespaceFromYaml, CreateClusterRoleFromYaml, CreateClusterRoleBindingFromYaml,
    CreateRoleFromYaml, CreateRoleBindingFromYaml, CreateServiceAccountFromYaml,
    CreateConfigMapFromYaml]

theorem createSpecific_eq (cli : Client) (poolname : String)
    (externalIPs : Option (List String)) (controllerImage webhookImage : String)
    (replicas : Int) (ownerRef : Option OwnerReference) (h : List Event) :
    CreateNginxIngressSpecificResource cli poolname externalIPs controllerImage webhookImage
        replicas ownerRef h =
      failFast cli
        (Spec.installPool poolname externalIPs controllerImage webhookImage replicas ownerRef)
        h := by
  simp only [CreateNginxIngressSpecificResource, Spec.installPool, Spec.keyFor, failFast]
  repeat' (first | rfl | split)
  all_goals simp_all [bind, StateT.bind, pure, StateT.pure, invoke, CreateDeployFromYaml,
    CreateServiceFromYaml, CreateValidatingWebhookConfigurationFromYaml, CreateJobFromYaml]

theorem deleteSpecific_eq (cli : Client) (poolname : String) (cleanup : Bool)
    (h : List Event) :
    DeleteNginxIngressSpecificResource cli poolname cleanup h =
      failFast cli (Spec.uninstallPool poolname cleanup) h := by
  simp only [DeleteNginxIngressSpecificResource, Spec.uninstallPool, Spec.keyFor, failFast]
  repeat' (first | rfl | split)
  all_goals simp_all [bind, StateT.bind, pure, StateT.pure, invoke, DeleteDeployFromYaml,
    DeleteServiceFromYaml, DeleteValidatingWebhookConfigurationFromYaml, DeleteJobFromYaml]

theorem updateDeployment_eq (cli : Client) (poolname : String) (replicas : Int)
    (image : String) (h : List Event) :
    UpdateNginxIngressControllerDeploymment cli poolname replicas image h =
      failFast cli (Spec.updateControllerDeployment poolname replicas image) h := by
  simp only [UpdateNginxIngressControllerDeploymment, Spec.updateControllerDeployment,
    Spec.keyFor, failFast]
  repeat' (first | rfl | split)
  all_goals simp_all [bind, StateT.bind, pure, StateT.pure, invoke, UpdateDeployFromYaml]

theorem scale_eq (cli : Client) (poolname : String) (replicas : Int) (h : List Event) :
    ScaleNginxIngressControllerDeploymment cli poolname replicas h =
      failFast cli [Step.call (Spec.scaleCall poolname replicas)] h := by
  simp only [ScaleNginxIngressControllerDeploymment, Spec.scaleCall, Spec.keyFor, failFast]
  repeat' (first | rfl | split)
  all_goals simp_all [bind, StateT.bind, pure, StateT.pure, invoke, UpdateDeployFromYaml]

theorem updateExternalIPs_eq (cli : Client) (poolname : String) (externalIPs : List String)
    (h : List Event) :
    UpdateNginxServiceExternalIPs cli poolname externalIPs h =
      failFast cli [Step.call (Spec.updateExternalIPsCall poolname externalIPs)] h := by
  simp only [UpdateNginxServiceExternalIPs, Spec.updateExternalIPsCall, Spec.keyFor, failFast]
  repeat' (first | rfl | split)
  all_goals simp_all [bind, StateT.bind, pure, StateT.pure, invoke, UpdateServiceFromYaml]

theorem recreate_eq (cli : Client) (poolname : String) (image : String) (h : List Event) :
    RecreateNginxWebhookJob cli poolname image h =
      failFast cli (Spec.recreateWebhookJobs poolname image) h := by
  simp only [RecreateNginxWebhookJob, Spec.recreateWebhookJobs, Spec.keyFor, failFast]
  repeat' (first | rfl | split)
  all_goals simp_all [bind, StateT.bind, pure, StateT.pure, invoke, DeleteJobFromYaml,
    CreateJobFromYaml, time.Sleep, time.Second]

/-! ## More facts about cut sequences -/

theorem cut_call_mem {steps : List Step} :
    ∀ {evs : List Event} {res : Option GoError}, CutAfterFirstFailure steps evs res →
      ∀ {c : Call} {r : Option GoError}, Event.call c r ∈ evs → Step.call c ∈ steps := by
  induction steps with
  | nil =>
    intro evs res hc c r hm
    rw [(cut_nil.mp hc).1] at hm
    simp at hm
  | cons s rest ih =>
    intro evs res hc c r hm
    cases s with
    | sleep d =>
      obtain ⟨evs1, rfl, h1⟩ := cut_cons_sleep.mp hc
      simp at hm
      exact List.mem_cons_of_mem _ (ih h1 hm)
    | call c1 =>
      rcases cut_cons_call.mp hc with ⟨err, rfl, -⟩ | ⟨evs1, rfl, h1⟩
      · simp at hm
        simp [hm.1]
      · simp at hm
        rcases hm with hm | hm
        · simp [hm.1]
        · exact List.mem_cons_of_mem _ (ih h1 hm)

theorem cut_length {steps : List Step} :
    ∀ {evs : List Event} {res : Option GoError}, CutAfterFirstFailure steps evs res →
      evs.length ≤ steps.length := by
  induction steps with
  | nil =>
    intro evs res hc
    simp [(cut_nil.mp hc).1]
  | cons s rest ih =>
    intro evs res hc
    cases s with
    | sleep d =>
      obtain ⟨evs1, rfl, h1⟩ := cut_cons_sleep.mp hc
      simpa using ih h1
    | call c1 =>
      rcases cut_cons_call.mp hc with ⟨err, rfl, -⟩ | ⟨evs1, rfl, h1⟩
      · simp
      · simpa using ih h1

/-- Whatever precedes an event of a cut sequence is the successful run of the steps before
its own step; an event that failed is the last one. -/
theorem cut_split {steps : List Step} :
    ∀ {evs : List Event} {res : Option GoError}, CutAfterFirstFailure steps evs res →
      ∀ {pre post : List Event} {e : Event}, evs = pre ++ e :: post →
        pre = (steps.take pre.length).map Step.ok ∧
        ∃ s, steps[pre.length]? = some s ∧
          (e = s.ok ∨
            ∃ c err, s = Step.call c ∧ e = Event.call c (some err) ∧ post = []) := by
  induction steps with
  | nil =>
    intro evs res hc pre post e he
    rw [(cut_nil.mp hc).1] at he
    simp at he
  | cons s rest ih =>
    intro evs res hc pre post e he
    cases s with
    | sleep d =>
      obtain ⟨evs1, rfl, h1⟩ := cut_cons_sleep.mp hc
      cases pre with
      | nil =>
        simp at he
        exact ⟨by simp, Step.sleep d, by simp, Or.inl (by simp [Step.ok, he.1])⟩
      | cons p pre1 =>
        simp at he
        obtain ⟨h2, s1, h3, h4⟩ := ih h1 he.2
        refine ⟨?_, s1, by simpa using h3, h4⟩
        simp only [List.length_cons, List.take_succ_cons, List.map_cons, ← h2, ← he.1, Step.ok]
    | call c1 =>
      rcases cut_cons_call.mp hc with ⟨err, rfl, -⟩ | ⟨evs1, rfl, h1⟩
      · cases pre with
        | nil =>
          simp at he
          exact ⟨by simp, Step.call c1, by simp,
            Or.inr ⟨c1, err, rfl, he.1.symm, he.2⟩⟩
        | cons p pre1 =>
          simp at he
      · cases pre with
        | nil =>
          simp at he
          exact ⟨by simp, Step.call c1, by simp, Or.inl (by simp [Step.ok, he.1])⟩
        | cons p pre1 =>
          simp at he
          obtain ⟨h2, s1, h3, h4⟩ := ih h1 he.2
          refine ⟨?_, s1, by simpa using h3, h4⟩
          simp only [List.length_cons, List.take_succ_cons, List.map_cons, ← h2, ← he.1,
            Step.ok]

/-- The step of a recorded call is that call. -/
theorem cut_split_call {steps : List Step} {evs : List Event} {res : Option GoError}
    (hc : CutAfterFirstFailure steps evs res) {pre post : List Event} {c : Call}
    {r : Option GoError} (he : evs = pre ++ Event.call c r :: post) :
    pre = (steps.take pre.length).map Step.ok ∧ steps[pre.length]? = some (Step.call c) := by
  obtain ⟨h1, s, h2, h3⟩ := cut_split hc he
  refine ⟨h1, ?_⟩
  rcases h3 with h3 | ⟨c1, err, rfl, h3, -⟩
  · cases s with
    | sleep d => simp [Step.ok] at h3
    | call c1 =>
      simp [Step.ok] at h3
      rw [h2, h3.1]
  · simp at h3
    rw [h2, h3.1]

/-! ## Facts shared by the theorems below -/

/-- The events of a run that agrees with the interpreter. -/
theorem issued_of_eq {r : Run (Option GoError)} {h evs : List Event}
    (heq : (r h).2 = h ++ evs) : issued r h = evs := by
  simp [issued, heq]

/-- Every step of the install sequence is a create carrying the given owner references. -/
theorem installCommon_calls {refs : List OwnerReference} {c : Call}
    (hm : Step.call c ∈ Spec.installCommon refs) :
    c.verb = Verb.create ∧ c.ownerRefs = some refs := by
  simp only [Spec.installCommon, List.mem_cons, Step.call.injEq, List.mem_singleton,
    List.not_mem_nil, or_false] at hm
  rcases hm with rfl | rfl | rfl | rfl | rfl | rfl | rfl | rfl | rfl | rfl | rfl | rfl <;>
    exact ⟨rfl, rfl⟩

/-- The run of `CreateNginxIngressCommonResource`: the lookup, then a fail-fast run of the
install sequence with the owner reference built from the object the lookup left. -/
theorem createCommon_run (cli : Client) (h : List Event) :
    ∃ evs : List Event,
      issued (CreateNginxIngressCommonResource cli) h =
        Event.get managerKey (cli.Get h managerKey ClusterRole.new).1
          (cli.Get h managerKey ClusterRole.new).2 :: evs ∧
      (CreateNginxIngressCommonResource cli h).2 =
        h ++ issued (CreateNginxIngressCommonResource cli) h ∧
      Answered cli h (issued (CreateNginxIngressCommonResource cli) h) ∧
      CutAfterFirstFailure
        (Spec.installCommon [ownerRefOf (cli.Get h managerKey ClusterRole.new).2]) evs
        (CreateNginxIngressCommonResource cli h).1 := by
  obtain ⟨evs, h1, h2, h3⟩ := failFast_spec cli
    (Spec.installCommon [ownerRefOf (cli.Get h managerKey ClusterRole.new).2])
    (h ++ [Event.get managerKey (cli.Get h managerKey ClusterRole.new).1
      (cli.Get h managerKey ClusterRole.new).2])
  rw [← createCommon_eq] at h1 h3
  have hi : issued (CreateNginxIngressCommonResource cli) h =
      Event.get managerKey (cli.Get h managerKey ClusterRole.new).1
        (cli.Get h managerKey ClusterRole.new).2 :: evs :=
    issued_of_eq (by rw [h1]; simp)
  refine ⟨evs, hi, ?_, ?_, h3⟩
  · rw [hi, h1]
    simp
  · rw [hi]
    exact ⟨rfl, h2⟩

/-! ## Install common resources -/

/-- C1: for every behaviour of the remote side and every history, the events of
`CreateNginxIngressCommonResource` are the lookup of the manager object followed by the
12-step install sequence (Namespace; two ClusterRoles; two ClusterRoleBindings; two Roles;
two RoleBindings; two ServiceAccounts; ConfigMap) cut just after its first failing call; the
result is that call's error, or nil when all 12 succeeded; every call issued is a create
that receives the same one-element owner-reference list, so no delete is ever issued. -/
theorem C1_install_common_fail_fast (cli : Client) (h : List Event) :
    ∃ (o : OwnerReference) (evs : List Event),
      issued (CreateNginxIngressCommonResource cli) h =
        Event.get { Namespace := "", Name := "yurt-app-manager-role" }
          (cli.Get h managerKey ClusterRole.new).1
          (cli.Get h managerKey ClusterRole.new).2 :: evs ∧
      (CreateNginxIngressCommonResource cli h).2 =
        h ++ issued (CreateNginxIngressCommonResource cli) h ∧
      Answered cli h (issued (CreateNginxIngressCommonResource cli) h) ∧
      CutAfterFirstFailure (Spec.installCommon [o]) evs
        (CreateNginxIngressCommonResource cli h).1 ∧
      ∀ c r, Event.call c r ∈ issued (CreateNginxIngressCommonResource cli) h →
        c.verb = Verb.create ∧ c.ownerRefs = some [o] := by
  obtain ⟨evs, h1, h2, h3, h4⟩ := createCommon_run cli h
  refine ⟨ownerRefOf (cli.Get h managerKey ClusterRole.new).2, evs, h1, h2, h3, h4, ?_⟩
  intro c r hm
  rw [h1] at hm
  simp only [List.mem_cons, reduceCtorEq, false_or] at hm
  exact installCommon_calls (cut_call_mem h4 hm)

/-! ## Install pool resources -/

/-- C2: for every pool name, external-IP list, controller image, webhook image, replica count
and owner reference, and every behaviour of the remote side, the events of
`CreateNginxIngressSpecificResource` are the 7-step sequence (controller Deployment with the
given replicas and owner reference; webhook Deployment with replicas 1 and no owner
reference; controller Service with the given external IPs; webhook Service with none;
ValidatingWebhookConfiguration with the given owner reference; certificate-generation Job
and certificate-patch Job with the webhook image) cut just after its first failing call, and
the result is that call's error, or nil when all 7 succeeded. -/
theorem C2_install_pool_fail_fast (cli : Client) (poolname : String)
    (externalIPs : Option (List String)) (controllerImage webhookImage : String)
    (replicas : Int) (ownerRef : Option OwnerReference) (h : List Event) :
    FailFastRun cli
      [ Step.call (Call.CreateDeployFromYaml constant.NginxIngressControllerNodePoolDeployment
          controllerImage replicas ownerRef [("nodepool_name", poolname)]),
        Step.call (Call.CreateDeployFromYaml constant.NginxIngressAdmissionWebhookDeployment
          controllerImage 1 none [("nodepool_name", poolname)]),
        Step.call (Call.CreateServiceFromYaml constant.NginxIngressControllerService
          externalIPs [("nodepool_name", poolname)]),
        Step.call (Call.CreateServiceFromYaml constant.NginxIngressAdmissionWebhookService
          none [("nodepool_name", poolname)]),
        Step.call (Call.CreateValidatingWebhookConfigurationFromYaml
          constant.NginxIngressValidatingWebhookConfiguration ownerRef
          [("nodepool_name", poolname)]),
        Step.call (Call.CreateJobFromYaml constant.NginxIngressAdmissionWebhookJob
          webhookImage [("nodepool_name", poolname)]),
        Step.call (Call.CreateJobFromYaml constant.NginxIngressAdmissionWebhookJobPatch
          webhookImage [("nodepool_name", poolname)]) ]
      (CreateNginxIngressSpecificResource cli poolname externalIPs controllerImage
        webhookImage replicas ownerRef) h :=
  failFastRun_of_eq (createSpecific_eq cli poolname externalIPs controllerImage webhookImage
    replicas ownerRef h)

/-! ## Uninstall common resources -/

/-- In the uninstall sequence, every binding stands before whatever it can name. -/
theorem uninstallCommon_bindings_first {n : Nat} {c b : Call}
    (hn : Spec.uninstallCommon[n]? = some (Step.call c))
    (hb : Step.call b ∈ Spec.uninstallCommon)
    (href : b.kind.mayReference c.kind = true) :
    Step.call b ∈ Spec.uninstallCommon.take n := by
  simp only [Spec.uninstallCommon, List.mem_cons, Step.call.injEq, List.mem_singleton,
    List.not_mem_nil, or_false] at hb
  rcases n with _ | _ | _ | _ | _ | _ | _ | _ | _ | _ | _ | _ | n <;>
    simp [Spec.uninstallCommon] at hn <;> subst hn <;>
    rcases hb with rfl | rfl | rfl | rfl | rfl | rfl | rfl | rfl | rfl | rfl | rfl | rfl <;>
    first
      | (exact absurd href (by decide))
      | simp [Spec.uninstallCommon]

/-- The Namespace delete is the last step of the uninstall sequence. -/
theorem uninstallCommon_namespace_last {n : Nat}
    (hn : Spec.uninstallCommon[n]? =
      some (Step.call (Call.DeleteNamespaceFromYaml constant.NginxIngressControllerNamespace))) :
    n = 11 := by
  rcases n with _ | _ | _ | _ | _ | _ | _ | _ | _ | _ | _ | _ | n <;>
    simp [Spec.uninstallCommon] at hn ⊢

/-- C3: for every behaviour of the remote side, the events of
`DeleteNginxIngressCommonResource` are the sequence ConfigMap; two RoleBindings; two Roles;
two ClusterRoleBindings; two ClusterRoles; two ServiceAccounts; Namespace, cut just after
its first failing delete, and the result is that delete's error or nil.  Hence, whenever a
delete is issued, the delete of every binding of the sequence that can name its object (a
RoleBinding for a Role, a ClusterRole or a ServiceAccount; a ClusterRoleBinding for a
ClusterRole or a ServiceAccount) has been issued before it and has succeeded; and when the
Namespace delete is issued it is the last event, the 11 other deletes having succeeded. -/
theorem C3_uninstall_common_fail_fast (cli : Client) (h : List Event) :
    FailFastRun cli
      [ Step.call (Call.DeleteConfigMapFromYaml constant.NginxIngressControllerConfigMap),
        Step.call (Call.DeleteRoleBindingFromYaml constant.NginxIngressControllerRoleBinding),
        Step.call (Call.DeleteRoleBindingFromYaml
          constant.NginxIngressAdmissionWebhookRoleBinding),
        Step.call (Call.DeleteRoleFromYaml constant.NginxIngressControllerRole),
        Step.call (Call.DeleteRoleFromYaml constant.NginxIngressAdmissionWebhookRole),
        Step.call (Call.DeleteClusterRoleBindingFromYaml
          constant.NginxIngressControllerClusterRoleBinding),
        Step.call (Call.DeleteClusterRoleBindingFromYaml
          constant.NginxIngressAdmissionWebhookClusterRoleBinding),
        Step.call (Call.DeleteClusterRoleFromYaml constant.NginxIngressControllerClusterRole),
        Step.call (Call.DeleteClusterRoleFromYaml
          constant.NginxIngressAdmissionWebhookClusterRole),
        Step.call (Call.DeleteServiceAccountFromYaml
          constant.NginxIngressControllerServiceAccount),
        Step.call (Call.DeleteServiceAccountFromYaml
          constant.NginxIngressAdmissionWebhookServiceAccount),
        Step.call (Call.DeleteNamespaceFromYaml constant.NginxIngressControllerNamespace) ]
      (DeleteNginxIngressCommonResource cli) h ∧
    (∀ pre post c r, issued (DeleteNginxIngressCommonResource cli) h =
        pre ++ Event.call c r :: post →
      ∀ b, Step.call b ∈ Spec.uninstallCommon → b.kind.mayReference c.kind = true →
        Event.call b none ∈ pre) ∧
    (∀ pre post r, issued (DeleteNginxIngressCommonResource cli) h =
        pre ++ Event.call
          (Call.DeleteNamespaceFromYaml constant.NginxIngressControllerNamespace) r :: post →
      post = [] ∧ pre = (Spec.uninstallCommon.take 11).map Step.ok) := by
  have hrun : FailFastRun cli Spec.uninstallCommon (DeleteNginxIngressCommonResource cli) h :=
    failFastRun_of_eq (deleteCommon_eq cli h)
  refine ⟨hrun, ?_, ?_⟩
  · intro pre post c r he b hb href
    obtain ⟨h1, h2⟩ := cut_split_call hrun.2.2 he
    rw [h1]
    exact List.mem_map.mpr ⟨Step.call b, uninstallCommon_bindings_first h2 hb href, rfl⟩
  · intro pre post r he
    obtain ⟨h1, h2⟩ := cut_split_call hrun.2.2 he
    have hn := uninstallCommon_namespace_last h2
    have hlen := cut_length hrun.2.2
    rw [he] at hlen
    simp [Spec.uninstallCommon, hn] at hlen
    rw [hn] at h1
    exact ⟨List.eq_nil_of_length_eq_zero (by omega), h1⟩

/-! ## Install order against uninstall order -/

theorem cut_none {steps : List Step} {evs : List Event}
    (hc : CutAfterFirstFailure steps evs none) : evs = steps.map Step.ok := by
  rcases hc with ⟨-, h2⟩ | ⟨n, c, err, -, h1, -⟩
  · exact h2
  · simp at h1

/-- The kinds created by a complete install, runs of one kind collapsed. -/
theorem install_kinds_of_success (cli : Client) (h : List Event)
    (hres : (CreateNginxIngressCommonResource cli h).1 = none) :
    collapse (kindsOf (issued (CreateNginxIngressCommonResource cli) h)) =
      [Kind.Namespace, Kind.ClusterRole, Kind.ClusterRoleBinding, Kind.Role, Kind.RoleBinding,
        Kind.ServiceAccount, Kind.ConfigMap] := by
  obtain ⟨evs, h1, -, -, h4⟩ := createCommon_run cli h
  rw [hres] at h4
  rw [h1, cut_none h4]
  simp [kindsOf, Spec.installCommon, Step.ok, Call.kind, collapse]

/-- The kinds deleted by a complete uninstall, runs of one kind collapsed. -/
theorem uninstall_kinds_of_success (cli : Client) (h : List Event)
    (hres : (DeleteNginxIngressCommonResource cli h).1 = none) :
    collapse (kindsOf (issued (DeleteNginxIngressCommonResource cli) h)) =
      [Kind.ConfigMap, Kind.RoleBinding, Kind.Role, Kind.ClusterRoleBinding, Kind.ClusterRole,
        Kind.ServiceAccount, Kind.Namespace] := by
  have hrun : FailFastRun cli Spec.uninstallCommon (DeleteNginxIngressCommonResource cli) h :=
    failFastRun_of_eq (deleteCommon_eq cli h)
  have h4 := hrun.2.2
  rw [hres] at h4
  rw [cut_none h4]
  simp [kindsOf, Spec.uninstallCommon, Step.ok, Call.kind, collapse]

/-- C4, as stated, fails: on a remote side where every step succeeds, the kinds deleted by
`DeleteNginxIngressCommonResource` (runs collapsed) are not the reverse of the kinds created
by `CreateNginxIngressCommonResource` (runs collapsed): ServiceAccounts are created after
the RoleBindings, yet deleted after the ClusterRoles, just before the Namespace. -/
theorem C4_uninstall_not_reverse_of_install :
    (CreateNginxIngressCommonResource Client.allSucceed []).1 = none ∧
    (DeleteNginxIngressCommonResource Client.allSucceed []).1 = none ∧
    collapse (kindsOf (issued (CreateNginxIngressCommonResource Client.allSucceed) [])) =
      [Kind.Namespace, Kind.ClusterRole, Kind.ClusterRoleBinding, Kind.Role, Kind.RoleBinding,
        Kind.ServiceAccount, Kind.ConfigMap] ∧
    collapse (kindsOf (issued (DeleteNginxIngressCommonResource Client.allSucceed) [])) =
      [Kind.ConfigMap, Kind.RoleBinding, Kind.Role, Kind.ClusterRoleBinding, Kind.ClusterRole,
        Kind.ServiceAccount, Kind.Namespace] ∧
    collapse (kindsOf (issued (DeleteNginxIngressCommonResource Client.allSucceed) [])) ≠
      (collapse
        (kindsOf (issued (CreateNginxIngressCommonResource Client.allSucceed) []))).reverse := by
  have hc : (CreateNginxIngressCommonResource Client.allSucceed []).1 = none := rfl
  have hd : (DeleteNginxIngressCommonResource Client.allSucceed []).1 = none := rfl
  refine ⟨hc, hd, install_kinds_of_success _ _ hc, uninstall_kinds_of_success _ _ hd, ?_⟩
  rw [install_kinds_of_success _ _ hc, uninstall_kinds_of_success _ _ hd]
  decide

/-- C4, amended: when every step succeeds, the kinds deleted by
`DeleteNginxIngressCommonResource`, runs collapsed, are ConfigMap, RoleBinding, Role,
ClusterRoleBinding, ClusterRole, ServiceAccount, Namespace; the kinds created by
`CreateNginxIngressCommonResource`, runs collapsed, are Namespace, ClusterRole,
ClusterRoleBinding, Role, RoleBinding, ServiceAccount, ConfigMap; and the first list is the
reverse of the second once ServiceAccount is left out of both. -/
theorem C4_uninstall_reverse_up_to_service_account (cli : Client) (h1 h2 : List Event)
    (hinstall : (CreateNginxIngressCommonResource cli h1).1 = none)
    (huninstall : (DeleteNginxIngressCommonResource cli h2).1 = none) :
    collapse (kindsOf (issued (DeleteNginxIngressCommonResource cli) h2)) =
      [Kind.ConfigMap, Kind.RoleBinding, Kind.Role, Kind.ClusterRoleBinding, Kind.ClusterRole,
        Kind.ServiceAccount, Kind.Namespace] ∧
    collapse (kindsOf (issued (CreateNginxIngressCommonResource cli) h1)) =
      [Kind.Namespace, Kind.ClusterRole, Kind.ClusterRoleBinding, Kind.Role, Kind.RoleBinding,
        Kind.ServiceAccount, Kind.ConfigMap] ∧
    (collapse (kindsOf (issued (DeleteNginxIngressCommonResource cli) h2))).filter
        (fun k => decide (k ≠ Kind.ServiceAccount)) =
      ((collapse (kindsOf (issued (CreateNginxIngressCommonResource cli) h1))).filter
        (fun k => decide (k ≠ Kind.ServiceAccount))).reverse := by
  rw [install_kinds_of_success cli h1 hinstall, uninstall_kinds_of_success cli h2 huninstall]
  exact ⟨rfl, rfl, by decide⟩

/-- C4, amended, on the remote side where everything succeeds, from the empty history. -/
theorem C4_uninstall_reverse_up_to_service_account_witness :
    (CreateNginxIngressCommonResource Client.allSucceed []).1 = none ∧
    (DeleteNginxIngressCommonResource Client.allSucceed []).1 = none ∧
    (collapse (kindsOf (issued (DeleteNginxIngressCommonResource Client.allSucceed) [])) =
      [Kind.ConfigMap, Kind.RoleBinding, Kind.Role, Kind.ClusterRoleBinding, Kind.ClusterRole,
        Kind.ServiceAccount, Kind.Namespace] ∧
    collapse (kindsOf (issued (CreateNginxIngressCommonResource Client.allSucceed) [])) =
      [Kind.Namespace, Kind.ClusterRole, Kind.ClusterRoleBinding, Kind.Role, Kind.RoleBinding,
        Kind.ServiceAccount, Kind.ConfigMap] ∧
    (collapse (kindsOf (issued (DeleteNginxIngressCommonResource Client.allSucceed) []))).filter
        (fun k => decide (k ≠ Kind.ServiceAccount)) =
      ((collapse
        (kindsOf (issued (CreateNginxIngressCommonResource Client.allSucceed) []))).filter
        (fun k => decide (k ≠ Kind.ServiceAccount))).reverse) :=
  ⟨rfl, rfl, C4_uninstall_reverse_up_to_service_account Client.allSucceed [] [] rfl rfl⟩

/-! ## Uninstall pool resources -/

/-- The cleanup flag reaches the Job deletions of the uninstall sequence and nothing else. -/
theorem uninstallPool_cleanup {poolname : String} {cleanup : Bool} {c : Call}
    (hm : Step.call c ∈ Spec.uninstallPool poolname cleanup) :
    c.verb = Verb.delete ∧ c.cleanup = if c.kind = Kind.Job then some cleanup else none := by
  simp only [Spec.uninstallPool, List.mem_cons, Step.call.injEq, List.mem_singleton,
    List.not_mem_nil, or_false] at hm
  rcases hm with rfl | rfl | rfl | rfl | rfl | rfl | rfl <;> exact ⟨rfl, rfl⟩

/-- The events that are not Job deletions do not depend on the cleanup flag. -/
theorem deleteSpecific_non_job (cli : Client) (poolname : String) (h : List Event) :
    (issued (DeleteNginxIngressSpecificResource cli poolname true) h).filter
        (fun e => !e.onJob) =
      (issued (DeleteNginxIngressSpecificResource cli poolname false) h).filter
        (fun e => !e.onJob) := by
  simp only [issued, deleteSpecific_eq, Spec.uninstallPool, Spec.keyFor, failFast]
  repeat' (first | rfl | split)
  all_goals simp_all [Event.onJob, Call.kind]

/-- C5: for every pool name, cleanup flag and behaviour of the remote side, the events of
`DeleteNginxIngressSpecificResource` are the sequence controller Deployment; webhook
Deployment; controller Service; webhook Service; ValidatingWebhookConfiguration; certificate
Job; certificate-patch Job, cut just after its first failing delete, and the result is that
delete's error or nil.  Every call issued is a delete; the cleanup flag is passed unchanged to
the Job deletions and to no other call, and the events that are not Job deletions are the
same for cleanup true and cleanup false. -/
theorem C5_uninstall_pool_fail_fast (cli : Client) (poolname : String) (cleanup : Bool)
    (h : List Event) :
    FailFastRun cli
      [ Step.call (Call.DeleteDeployFromYaml constant.NginxIngressControllerNodePoolDeployment
          [("nodepool_name", poolname)]),
        Step.call (Call.DeleteDeployFromYaml constant.NginxIngressAdmissionWebhookDeployment
          [("nodepool_name", poolname)]),
        Step.call (Call.DeleteServiceFromYaml constant.NginxIngressControllerService
          [("nodepool_name", poolname)]),
        Step.call (Call.DeleteServiceFromYaml constant.NginxIngressAdmissionWebhookService
          [("nodepool_name", poolname)]),
        Step.call (Call.DeleteValidatingWebhookConfigurationFromYaml
          constant.NginxIngressValidatingWebhookConfiguration [("nodepool_name", poolname)]),
        Step.call (Call.DeleteJobFromYaml constant.NginxIngressAdmissionWebhookJob cleanup
          [("nodepool_name", poolname)]),
        Step.call (Call.DeleteJobFromYaml constant.NginxIngressAdmissionWebhookJobPatch cleanup
          [("nodepool_name", poolname)]) ]
      (DeleteNginxIngressSpecificResource cli poolname cleanup) h ∧
    (∀ c r,
      Event.call c r ∈ issued (DeleteNginxIngressSpecificResource cli poolname cleanup) h →
      c.verb = Verb.delete ∧
        c.cleanup = if c.kind = Kind.Job then some cleanup else none) ∧
    (issued (DeleteNginxIngressSpecificResource cli poolname true) h).filter
        (fun e => !e.onJob) =
      (issued (DeleteNginxIngressSpecificResource cli poolname false) h).filter
        (fun e => !e.onJob) := by
  have hrun : FailFastRun cli (Spec.uninstallPool poolname cleanup)
      (DeleteNginxIngressSpecificResource cli poolname cleanup) h :=
    failFastRun_of_eq (deleteSpecific_eq cli poolname cleanup h)
  exact ⟨hrun, fun c r hm => uninstallPool_cleanup (cut_call_mem hrun.2.2 hm),
    deleteSpecific_non_job cli poolname h⟩

/-! ## Recreate the webhook jobs -/

/-- In the recreate sequence, a create stands after both deletes and the wait. -/
theorem recreate_create_after_wait {poolname image : String} {n : Nat} {c : Call}
    (hn : (Spec.recreateWebhookJobs poolname image)[n]? = some (Step.call c))
    (hv : c.verb = Verb.create) :
    ∃ rest, (Spec.recreateWebhookJobs poolname image).take n =
      [ Step.call (Call.DeleteJobFromYaml constant.NginxIngressAdmissionWebhookJob false
          [("nodepool_name", poolname)]),
        Step.call (Call.DeleteJobFromYaml constant.NginxIngressAdmissionWebhookJobPatch false
          [("nodepool_name", poolname)]),
        Step.sleep 3000000000 ] ++ rest := by
  rcases n with _ | _ | _ | _ | _ | n <;>
    simp [Spec.recreateWebhookJobs] at hn <;> try subst hn
  · simp [Call.verb] at hv
  · simp [Call.verb] at hv
  · exact ⟨[], by simp [Spec.recreateWebhookJobs, Spec.keyFor, time.Second]⟩
  · exact ⟨[Step.call (Call.CreateJobFromYaml constant.NginxIngressAdmissionWebhookJob image
      [("nodepool_name", poolname)])],
      by simp [Spec.recreateWebhookJobs, Spec.keyFor, time.Second]⟩

/-- C6: for every pool name, image and behaviour of the remote side, the events of
`RecreateNginxWebhookJob` are the sequence delete certificate Job, delete certificate-patch
Job (both with cleanup false), wait 3 seconds, create certificate Job, create
certificate-patch Job (both with the supplied image), cut just after its first failing call,
and the result is that call's error or nil.  Hence whenever a create is issued, the history
of the run before it starts with the two deletes, both succeeded, and the 3-second wait. -/
theorem C6_recreate_delete_wait_create (cli : Client) (poolname image : String)
    (h : List Event) :
    FailFastRun cli
      [ Step.call (Call.DeleteJobFromYaml constant.NginxIngressAdmissionWebhookJob false
          [("nodepool_name", poolname)]),
        Step.call (Call.DeleteJobFromYaml constant.NginxIngressAdmissionWebhookJobPatch false
          [("nodepool_name", poolname)]),
        Step.sleep (3 * time.Second),
        Step.call (Call.CreateJobFromYaml constant.NginxIngressAdmissionWebhookJob image
          [("nodepool_name", poolname)]),
        Step.call (Call.CreateJobFromYaml constant.NginxIngressAdmissionWebhookJobPatch image
          [("nodepool_name", poolname)]) ]
      (RecreateNginxWebhookJob cli poolname image) h ∧
    3 * time.Second = 3000000000 ∧
    ∀ pre post c r, issued (RecreateNginxWebhookJob cli poolname image) h =
        pre ++ Event.call c r :: post → c.verb = Verb.create →
      [ Event.call (Call.DeleteJobFromYaml constant.NginxIngressAdmissionWebhookJob false
          [("nodepool_name", poolname)]) none,
        Event.call (Call.DeleteJobFromYaml constant.NginxIngressAdmissionWebhookJobPatch false
          [("nodepool_name", poolname)]) none,
        Event.sleep 3000000000 ] <+: pre := by
  have hrun : FailFastRun cli (Spec.recreateWebhookJobs poolname image)
      (RecreateNginxWebhookJob cli poolname image) h :=
    failFastRun_of_eq (recreate_eq cli poolname image h)
  refine ⟨hrun, by decide, ?_⟩
  intro pre post c r he hv
  obtain ⟨h1, h2⟩ := cut_split_call hrun.2.2 he
  obtain ⟨rest, h3⟩ := recreate_create_after_wait h2 hv
  rw [h1, h3]
  exact ⟨rest.map Step.ok, by simp [Step.ok]⟩

/-! ## A failed lookup of the manager object -/

/-- C10: for every pool name and replica count `N`, `ScaleNginxIngressControllerDeploymment`
issues exactly one call, an update of the controller Deployment carrying replicas `N`, the
empty image and the pool's label; it returns that update's error, or nil.  The call is an
update, not a create or a delete, and it is not made on the webhook Deployment. -/
theorem C10_scale_single_update (cli : Client) (poolname : String) (N : Int)
    (h : List Event) :
    issued (ScaleNginxIngressControllerDeploymment cli poolname N) h =
      [ Event.call
          (Call.UpdateDeployFromYaml constant.NginxIngressControllerNodePoolDeployment ""
            (some N) [("nodepool_name", poolname)])
          (ScaleNginxIngressControllerDeploymment cli poolname N h).1 ] ∧
    (ScaleNginxIngressControllerDeploymment cli poolname N h).2 =
      h ++ issued (ScaleNginxIngressControllerDeploymment cli poolname N) h ∧
    (ScaleNginxIngressControllerDeploymment cli poolname N h).1 =
      cli.exec h (Call.UpdateDeployFromYaml constant.NginxIngressControllerNodePoolDeployment ""
        (some N) [("nodepool_name", poolname)]) ∧
    ∀ c r, Event.call c r ∈ issued (ScaleNginxIngressControllerDeploymment cli poolname N) h →
      c.verb = Verb.update ∧ c.kind = Kind.Deployment ∧
        c.crTmpl = constant.NginxIngressControllerNodePoolDeployment ∧
        c.crTmpl ≠ constant.NginxIngressAdmissionWebhookDeployment := by
  have key : ScaleNginxIngressControllerDeploymment cli poolname N h =
      (cli.exec h (Call.UpdateDeployFromYaml constant.NginxIngressControllerNodePoolDeployment
          "" (some N) [("nodepool_name", poolname)]),
        h ++ [Event.call
          (Call.UpdateDeployFromYaml constant.NginxIngressControllerNodePoolDeployment ""
            (some N) [("nodepool_name", poolname)])
          (cli.exec h (Call.UpdateDeployFromYaml
            constant.NginxIngressControllerNodePoolDeployment "" (some N)
            [("nodepool_name", poolname)]))]) := by
    rw [scale_eq]
    simp only [failFast, Spec.scaleCall, Spec.keyFor]
    split <;> simp_all
  have hi := issued_of_eq (congrArg Prod.snd key)
  refine ⟨?_, ?_, ?_, ?_⟩
  · rw [hi, key]
  · rw [hi, key]
  · rw [key]
  · intro c r hm
    rw [hi] at hm
    simp only [List.mem_singleton, Event.call.injEq] at hm
    rw [hm.1]
    exact ⟨rfl, rfl, rfl, by simp [Call.crTmpl]⟩

/-- Every step of the update sequence is an update. -/
theorem updateControllerDeployment_calls {poolname image : String} {replicas : Int} {c : Call}
    (hm : Step.call c ∈ Spec.updateControllerDeployment poolname replicas image) :
    c.verb = Verb.update := by
  simp only [Spec.updateControllerDeployment, List.mem_cons, Step.call.injEq,
    List.mem_singleton, List.not_mem_nil, or_false] at hm
  rcases hm with rfl | rfl <;> rfl

/-- C9: for every pool name, replica count `replicas` and image `image`,
`UpdateNginxIngressControllerDeploymment` issues the update of the controller Deployment with
`replicas` and `image` and then, only if that update succeeded, the update of the webhook
Deployment with replicas 1 and the same image; the result is the first failing update's
error or nil, and every call issued is an update.  With pool, 3 and "img:v2" on a remote
side where every call succeeds the two calls are the controller Deployment with replicas 3
and "img:v2", then the webhook Deployment with replicas 1 and "img:v2". -/
theorem C9_update_controller_deployment (cli : Client) (poolname : String) (replicas : Int)
    (image : String) (h : List Event) :
    FailFastRun cli
      [ Step.call (Call.UpdateDeployFromYaml constant.NginxIngressControllerNodePoolDeployment
          image (some replicas) [("nodepool_name", poolname)]),
        Step.call (Call.UpdateDeployFromYaml constant.NginxIngressAdmissionWebhookDeployment
          image (some 1) [("nodepool_name", poolname)]) ]
      (UpdateNginxIngressControllerDeploymment cli poolname replicas image) h ∧
    (∀ c r,
      Event.call c r ∈
          issued (UpdateNginxIngressControllerDeploymment cli poolname replicas image) h →
        c.verb = Verb.update) ∧
    ((∀ h1 c, cli.exec h1 c = none) →
      UpdateNginxIngressControllerDeploymment cli poolname 3 "img:v2" h =
        (none, h ++
          [ Event.call
              (Call.UpdateDeployFromYaml constant.NginxIngressControllerNodePoolDeployment
                "img:v2" (some 3) [("nodepool_name", poolname)]) none,
            Event.call
              (Call.UpdateDeployFromYaml constant.NginxIngressAdmissionWebhookDeployment
                "img:v2" (some 1) [("nodepool_name", poolname)]) none ])) := by
  have hrun : FailFastRun cli (Spec.updateControllerDeployment poolname replicas image)
      (UpdateNginxIngressControllerDeploymment cli poolname replicas image) h :=
    failFastRun_of_eq (updateDeployment_eq cli poolname replicas image h)
  refine ⟨hrun, fun c r hm => updateControllerDeployment_calls (cut_call_mem hrun.2.2 hm), ?_⟩
  intro hok
  rw [updateDeployment_eq]
  simp [failFast, Spec.updateControllerDeployment, Spec.keyFor, hok]

/-- C9 on the remote side where everything succeeds, for the pool "pool". -/
theorem C9_update_controller_deployment_witness :
    UpdateNginxIngressControllerDeploymment Client.allSucceed "pool" 3 "img:v2" [] =
      (none,
        [ Event.call
            (Call.UpdateDeployFromYaml constant.NginxIngressControllerNodePoolDeployment
              "img:v2" (some 3) [("nodepool_name", "pool")]) none,
          Event.call
            (Call.UpdateDeployFromYaml constant.NginxIngressAdmissionWebhookDeployment
              "img:v2" (some 1) [("nodepool_name", "pool")]) none ]) :=
  (C9_update_controller_deployment Client.allSucceed "pool" 3 "img:v2" []).2.2
    (fun _ _ => rfl)

/-! ## The pool scope key -/

/-- What holds of every call of a sequence holds of every call issued by a run of it. -/
theorem FailFastRun.calls {cli : Client} {steps : List Step} {r : Run (Option GoError)}
    {h : List Event} (hrun : FailFastRun cli steps r h) {p : Call → Prop}
    (hp : ∀ c, Step.call c ∈ steps → p c) :
    ∀ c res, Event.call c res ∈ issued r h → p c :=
  fun c _ hm => hp c (cut_call_mem hrun.2.2 hm)

theorem installPool_labels {poolname : String} {externalIPs : Option (List String)}
    {controllerImage webhookImage : String} {replicas : Int}
    {ownerRef : Option OwnerReference} (c : Call)
    (hm : Step.call c ∈
      Spec.installPool poolname externalIPs controllerImage webhookImage replicas ownerRef) :
    c.labels = some [("nodepool_name", poolname)] := by
  simp only [Spec.installPool, List.mem_cons, Step.call.injEq, List.mem_singleton,
    List.not_mem_nil, or_false] at hm
  rcases hm with rfl | rfl | rfl | rfl | rfl | rfl | rfl <;> rfl

theorem uninstallPool_labels {poolname : String} {cleanup : Bool} (c : Call)
    (hm : Step.call c ∈ Spec.uninstallPool poolname cleanup) :
    c.labels = some [("nodepool_name", poolname)] := by
  simp only [Spec.uninstallPool, List.mem_cons, Step.call.injEq, List.mem_singleton,
    List.not_mem_nil, or_false] at hm
  rcases hm with rfl | rfl | rfl | rfl | rfl | rfl | rfl <;> rfl

theorem updateControllerDeployment_labels {poolname image : String} {replicas : Int}
    (c : Call) (hm : Step.call c ∈ Spec.updateControllerDeployment poolname replicas image) :
    c.labels = some [("nodepool_name", poolname)] := by
  simp only [Spec.updateControllerDeployment, List.mem_cons, Step.call.injEq,
    List.mem_singleton, List.not_mem_nil, or_false] at hm
  rcases hm with rfl | rfl <;> rfl

theorem recreate_labels {poolname image : String} (c : Call)
    (hm : Step.call c ∈ Spec.recreateWebhookJobs poolname image) :
    c.labels = some [("nodepool_name", poolname)] := by
  simp only [Spec.recreateWebhookJobs, List.mem_cons, Step.call.injEq, List.mem_singleton,
    List.not_mem_nil, or_false, reduceCtorEq, false_or] at hm
  rcases hm with rfl | rfl | rfl | rfl <;> rfl

theorem single_labels {poolname : String} {c0 : Call}
    (h0 : c0.labels = some [("nodepool_name", poolname)]) (c : Call)
    (hm : Step.call c ∈ [Step.call c0]) : c.labels = some [("nodepool_name", poolname)] := by
  simp only [List.mem_singleton, Step.call.injEq] at hm
  rw [hm]
  exact h0

/-- C8: for every pool name `P`, every call issued by a pool-scoped operation invoked for `P`
(install pool resources, uninstall pool resources, scale, update controller deployment,
update service external IPs, recreate webhook jobs), on every remote side and with every
other argument, carries a label map with exactly one entry, nodepool_name = `P`.  Hence for
pool names `P` and `P2` that differ, installing pool resources for `P` issues no call whose
label map is the scope key of `P2`. -/
theorem C8_pool_label_isolation (cli : Client) (P : String) (h : List Event) :
    (∀ externalIPs controllerImage webhookImage replicas ownerRef c r,
      Event.call c r ∈ issued (CreateNginxIngressSpecificResource cli P externalIPs
          controllerImage webhookImage replicas ownerRef) h →
        c.labels = some [("nodepool_name", P)]) ∧
    (∀ cleanup c r,
      Event.call c r ∈ issued (DeleteNginxIngressSpecificResource cli P cleanup) h →
        c.labels = some [("nodepool_name", P)]) ∧
    (∀ replicas c r,
      Event.call c r ∈ issued (ScaleNginxIngressControllerDeploymment cli P replicas) h →
        c.labels = some [("nodepool_name", P)]) ∧
    (∀ replicas image c r,
      Event.call c r ∈ issued (UpdateNginxIngressControllerDeploymment cli P replicas image) h →
        c.labels = some [("nodepool_name", P)]) ∧
    (∀ externalIPs c r,
      Event.call c r ∈ issued (UpdateNginxServiceExternalIPs cli P externalIPs) h →
        c.labels = some [("nodepool_name", P)]) ∧
    (∀ image c r,
      Event.call c r ∈ issued (RecreateNginxWebhookJob cli P image) h →
        c.labels = some [("nodepool_name", P)]) ∧
    (∀ P2, P ≠ P2 →
      ∀ externalIPs controllerImage webhookImage replicas ownerRef c r,
        Event.call c r ∈ issued (CreateNginxIngressSpecificResource cli P externalIPs
            controllerImage webhookImage replicas ownerRef) h →
          c.labels ≠ some [("nodepool_name", P2)]) := by
  have hinstall : ∀ externalIPs controllerImage webhookImage replicas ownerRef c r,
      Event.call c r ∈ issued (CreateNginxIngressSpecificResource cli P externalIPs
          controllerImage webhookImage replicas ownerRef) h →
        c.labels = some [("nodepool_name", P)] :=
    fun externalIPs controllerImage webhookImage replicas ownerRef =>
      (failFastRun_of_eq (createSpecific_eq cli P externalIPs controllerImage webhookImage
        replicas ownerRef h)).calls installPool_labels
  refine ⟨hinstall, ?_, ?_, ?_, ?_, ?_, ?_⟩
  · exact fun cleanup =>
      (failFastRun_of_eq (deleteSpecific_eq cli P cleanup h)).calls uninstallPool_labels
  · exact fun replicas =>
      (failFastRun_of_eq (scale_eq cli P replicas h)).calls (single_labels rfl)
  · exact fun replicas image =>
      (failFastRun_of_eq (updateDeployment_eq cli P replicas image h)).calls
        updateControllerDeployment_labels
  · exact fun externalIPs =>
      (failFastRun_of_eq (updateExternalIPs_eq cli P externalIPs h)).calls (single_labels rfl)
  · exact fun image =>
      (failFastRun_of_eq (recreate_eq cli P image h)).calls recreate_labels
  · intro P2 hne externalIPs controllerImage webhookImage replicas ownerRef c r hm
    rw [hinstall externalIPs controllerImage webhookImage replicas ownerRef c r hm]
    simpa using hne

end ApplyAddons
